import Mathlib

/-!
Verification of the `go2ts` translator (files `convert.go` and the package
aggregator file) against its natural-language specification.

The Go parser (`go/parser`), the AST library (`go/ast`), the `structtag`
library and the file system are external collaborators: they are modelled
as data fed to the embedded functions.  Everything below the parse — the
type compiler `writeType`, the field emitter `writeFields`, the
declaration-translator loop inside `Convert`, and the aggregator's
`createPackage` / path handling in `ReadTypes` — is translated directly
from the source.

Conventions:
- Go strings are byte strings; the model uses Lean `String`.  The one
  place where the byte level matters (`fieldName[0]` in `writeFields`)
  is modelled on the UTF-8 encoding of the first character.
- `strings.Builder` is only ever appended to, so every writer returns the
  text it appends (delta semantics) instead of threading the builder.
- `ast.Inspect` visits nodes in preorder and a callback returning `false`
  stops descent into the node's children; the node lists fed to the
  `Convert` model are the sequences of callback invocations that the
  switch in `Convert` reacts to, in that preorder.
-/

/-- Result of `tags.Get("json")` on a successfully parsed struct tag:
the tag's name and whether `HasOption("omitempty")` holds.
Models the `structtag.Tag` values used by `writeFields`. -/
structure JsonTagInfo where
  name : String
  omitempty : Bool
  deriving DecidableEq, Repr

/-- A successfully parsed struct tag set, restricted to the only query
`writeFields` performs on it: the `json` tag, if present. -/
structure TagSet where
  json : Option JsonTagInfo
  deriving DecidableEq, Repr

mutual
/-- Shallow embedding of the `ast.Expr` shapes handled by `writeType`
(convert.go:54-135).  `otherExpr` carries the `%s` and `%T` renderings of
a node hit by the `default` case (e.g. a channel type). -/
inductive GoExpr : Type where
  | ident : String → GoExpr
  | star : GoExpr → GoExpr
  | arrayType : GoExpr → GoExpr
  | structType : List GoField → GoExpr
  | mapType : GoExpr → GoExpr → GoExpr
  | selector : String → String → GoExpr
  | interfaceType : GoExpr
  | indexListExpr : GoExpr
  | otherExpr : String → String → GoExpr
  deriving Repr

/-- An `ast.Field`: its name list, the outcome of `structtag.Parse` on its
tag (`none` = no tag, `some (.error m)` = malformed tag, `some (.ok t)` =
parsed), and its type expression. -/
inductive GoField : Type where
  | mk : List String → Option (Except String TagSet) → GoExpr → GoField
  deriving Repr
end

/-- Field name list accessor (`f.Names`). -/
def GoField.names : GoField → List String
  | .mk ns _ _ => ns

/-- Struct-tag outcome accessor (`f.Tag` fed through `structtag.Parse`). -/
def GoField.tag : GoField → Option (Except String TagSet)
  | .mk _ t _ => t

/-- Field type accessor (`f.Type`). -/
def GoField.type : GoField → GoExpr
  | .mk _ _ ty => ty

/-- The indent unit `tsIndent = "  "` (convert.go:17). -/
def tsIndent : String := "  "

/-- The loop `for i := 0; i < count; i++ { builder.WriteString(tsIndent) }`:
`count` copies of the indent unit, none when `count ≤ 0` (the depth is an
`int` and `Convert` starts it at `-1`). -/
def indentUnits (count : Int) : String :=
  String.join (List.replicate count.toNat tsIndent)

/-- `convertType` (convert.go:40-52): primitive-name mapping, identity on
everything else. -/
def convertType (s : String) : String :=
  match s with
  | "bool" => "boolean"
  | "int" | "int8" | "int16" | "int32" | "int64"
  | "uint" | "uint8" | "uint16" | "uint32" | "uint64"
  | "float32" | "float64"
  | "complex64" | "complex128" => "number"
  | _ => s

/-- The first byte of a Go string, i.e. the first byte of the UTF-8
encoding of its first character; `0` for the empty string (the code
guards `len(fieldName) == 0` separately, and byte `0` fails the
uppercase-range test just like emptiness does). -/
def firstUtf8Byte (s : String) : Nat :=
  match s.data with
  | [] => 0
  | c :: _ => ((String.utf8EncodeChar c).head?.getD 0).toNat

/-- The complement of the skip test at convert.go:151:
`len(fieldName) == 0 || 'A' > fieldName[0] || fieldName[0] > 'Z'`.
A field is kept only when its name's first byte is an ASCII byte in
`['A','Z']` = `[65, 90]`. -/
def exportedAsciiName (s : String) : Bool :=
  if s = "" then false
  else decide (65 ≤ firstUtf8Byte s ∧ firstUtf8Byte s ≤ 90)

/-- `validJSName` (convert.go:137-141): the regexp
`^[\pL_][\pL\pN_]*$`.  The Unicode letter/number classes are modelled by
their ASCII fragments; every name reaching this predicate in the theorems
below is ASCII, where the two coincide. -/
def validJSName (s : String) : Bool :=
  match s.data with
  | [] => false
  | c :: cs =>
      (c.isAlpha || c = '_') && cs.all (fun d => d.isAlpha || d.isDigit || d = '_')

/-- `logging.Bubble(err, msg)`: the error annotated with a context string. -/
def bubble (msg err : String) : String := msg ++ ": " ++ err

/-- One-level pointer unwrap: the `case *ast.StarExpr: f.Type = t.X`
assignment at convert.go:194, as a function on the type expression. -/
def unwrapStar : GoExpr → GoExpr
  | .star x => x
  | t => t

/-- Whether a type expression is a pointer (`*ast.StarExpr`). -/
def isStarExpr : GoExpr → Bool
  | .star _ => true
  | _ => false

/-- The test `v, ok := t.Elt.(*ast.Ident); ok && v.String() == "byte"` in
the `*ast.ArrayType` case (convert.go:71). -/
def isByteIdent : GoExpr → Bool
  | .ident n => n == "byte"
  | _ => false

/-- Outcome of one iteration of the `writeFields` loop body
(convert.go:144-204): the field is skipped (`continue`), the loop aborts
with a tag parse error (`return`), or a line is emitted and the field —
possibly with its pointer type unwrapped in place — remains in the
tree. -/
inductive FieldStep : Type where
  | skip : FieldStep
  | fail : String → FieldStep
  | emit : String → GoField → FieldStep
  deriving Repr

/-- Outcome of the name/tag prefix of the loop body (convert.go:145-175,
before anything is written): skip, abort with a tag parse error, or emit
under the given name with the given `omitempty`-derived optionality. -/
inductive FieldGate : Type where
  | skip : FieldGate
  | fail : String → FieldGate
  | emit : String → Bool → FieldGate
  deriving DecidableEq, Repr

/-- The name/visibility/tag logic of the `writeFields` loop body
(convert.go:145-175): skip unexported or missing names, abort on a tag
that fails to parse, skip a `json:"-"` field, and otherwise emit under
the json tag name when non-empty (else the field name), optional when
the tag has `omitempty`. -/
def fieldGate (ns : List String) (tag : Option (Except String TagSet)) : FieldGate :=
  let fieldName := ns.head?.getD ""
  if exportedAsciiName fieldName = false then .skip
  else
    match tag with
    | some (.error m) => .fail (bubble "could not parse struct tag" m)
    | _ =>
        let jt : Option JsonTagInfo :=
          match tag with
          | some (.ok tset) => tset.json
          | _ => none
        let skipDash := match jt with
          | some j => j.name == "-"
          | none => false
        if skipDash then .skip
        else
          let tagName := match jt with
            | some j => j.name
            | none => ""
          let optional0 := match jt with
            | some j => j.omitempty
            | none => false
          .emit (if tagName = "" then fieldName else tagName) optional0

/-- The text written for one emitted field (convert.go:177-203):
indentation, the name single-quoted when not a valid JS identifier, `?`
when optional, then the compiled type and `;`. -/
def fieldLine (depth : Int) (name : String) (optional : Bool) (tyOut : String) : String :=
  indentUnits (depth + 1)
    ++ (if validJSName name then "" else "\x27") ++ name
    ++ (if validJSName name then "" else "\x27")
    ++ (if optional then "?" else "") ++ ": " ++ tyOut ++ ";\n"

mutual
/-- `writeType` (convert.go:54-135).  Returns the text appended to the
builder together with the returned `error` (the builder keeps whatever
was appended before an error).  The `*ast.StructType` case calls
`writeFields` and discards its error and its (mutated) field list,
exactly as the source does at convert.go:83. -/
def writeType : GoExpr → Int → Bool → String × Option String
  | .star x, depth, optionalParens =>
      let opn := if optionalParens then "(" else ""
      match writeType x depth false with
      | (s, some err) => (opn ++ s, some (bubble "writeType StarExpr" err))
      | (s, none) =>
          let s2 := opn ++ s ++ " | undefined"
          (if optionalParens then s2 ++ ")" else s2, none)
  | .arrayType elt, depth, _ =>
      if isByteIdent elt then ("string", none)
      else
        match writeType elt depth true with
        | (s, some err) => (s, some (bubble "writeType ArrayType" err))
        | (s, none) => (s ++ "[]", none)
  | .structType fields, depth, _ =>
      match writeFields fields (depth + 1) with
      | (s, _, _) =>
          ("\x7b\n" ++ s ++ indentUnits (depth + 1) ++ "\x7d;", none)
  | .ident n, _, _ => (convertType n, none)
  | .selector x sel, _, _ =>
      let longType := x ++ "." ++ sel
      (match longType with
       | "time.Time" => "string"
       | "time.Duration" => "number"
       | "decimal.Decimal" => "number"
       | "pgtype.Timestamptz" => "string"
       | _ => longType, none)
  | .mapType k v, depth, _ =>
      match writeType k depth false with
      | (ks, some err) =>
          ("\x7b [key: " ++ ks, some (bubble "writeType MapType Key" err))
      | (ks, none) =>
          match writeType v depth false with
          | (vs, some err) =>
              ("\x7b [key: " ++ ks ++ "]: " ++ vs,
               some (bubble "writeType MapType Value" err))
          | (vs, none) =>
              ("\x7b [key: " ++ ks ++ "]: " ++ vs ++ "\x7d", none)
  | .interfaceType, _, _ => ("any", none)
  | .indexListExpr, _, _ => ("any", none)
  | .otherExpr reprText tyName, _, _ =>
      ("", some (bubble "writeType" ("unhandled: " ++ reprText ++ ", " ++ tyName)))

/-- One iteration of the `writeFields` loop (convert.go:144-204) on a
single field.  The `switch` at convert.go:191-195 is the split between
the two arms: a pointer field is forced optional and its type is
unwrapped in place (`f.Type = t.X`), which the model records by
returning the updated field in the `emit` step. -/
def writeField : GoField → Int → FieldStep
  | .mk ns tag (.star x), depth =>
      match fieldGate ns tag with
      | .skip => .skip
      | .fail e => .fail e
      | .emit name _ =>
          .emit (fieldLine depth name true (writeType x depth false).1) (.mk ns tag x)
  | .mk ns tag ty, depth =>
      match fieldGate ns tag with
      | .skip => .skip
      | .fail e => .fail e
      | .emit name optional0 =>
          .emit (fieldLine depth name optional0 (writeType ty depth false).1) (.mk ns tag ty)

/-- `writeFields` (convert.go:143-206).  Returns the appended text, the
returned `error`, and the field list as it stands after the pass (the
in-place pointer unwrap made observable).  On a tag parse error the
function returns immediately, leaving the remaining fields untouched;
the error of the nested `writeType` call at convert.go:202 is discarded
inside `writeField`, as in the source. -/
def writeFields : List GoField → Int → String × Option String × List GoField
  | [], _ => ("", none, [])
  | f :: fs, depth =>
      match writeField f depth with
      | .skip =>
          match writeFields fs depth with
          | (s, e, fs2) => (s, e, f :: fs2)
      | .fail err => ("", some err, f :: fs)
      | .emit line f2 =>
          match writeFields fs depth with
          | (s, e, fs2) => (line ++ s, e, f2 :: fs2)
end

/-- `strings.Trim(s, "\"")`: strip quote characters from both ends.  Used
on import aliases and import path literals (convert.go:252-257,
aggregator file:123-127). -/
def stringsTrimQuote (s : String) : String :=
  String.mk (((s.data.dropWhile (fun c => c = '"')).reverse.dropWhile
    (fun c => c = '"')).reverse)

/-- `filepath.Base` on slash-separated paths: empty path gives `"."`,
trailing slashes are stripped, an all-slash path gives `"/"`, otherwise
the segment after the last slash. -/
def filepathBase (p : String) : String :=
  if p = "" then "."
  else
    let stripped := p.data.reverse.dropWhile (fun c => c = '/')
    if stripped = [] then "/"
    else String.mk ((stripped.takeWhile (fun c => ¬ (c = '/'))).reverse)

/-- Index of the first occurrence of `pat` in `s` (`strings.Index`),
`none` when `pat` does not occur. -/
def subIndex (s pat : List Char) : Option Nat :=
  if pat.isPrefixOf s then some 0
  else
    match s with
    | [] => none
    | _ :: t => (subIndex t pat).map (fun i => i + 1)

/-- `strings.Replace(s, old, new, 1)`: replace the first occurrence of
`old` anywhere in `s` by `new`; `s` unchanged when `old` does not
occur. -/
def replaceFirst (s old new : String) : String :=
  match subIndex s.data old.data with
  | none => s
  | some i => String.mk (s.data.take i ++ new.data ++ s.data.drop (i + old.length))

/-- The nodes that the `ast.Inspect` callback in `Convert`
(convert.go:246-315) reacts to, in the preorder the traversal delivers
them.  `importSpec` carries `x.Name` (if any) and the raw `x.Path.Value`
literal (quotes included); `identNode` is any visited `*ast.Ident`;
`arrayTypeNode` carries the `%s` rendering of `x.Elt`; `typeSpec` is a
`*ast.TypeSpec` with its name and underlying type. -/
inductive ConvNode : Type where
  | importSpec : Option String → String → ConvNode
  | identNode : String → ConvNode
  | comment : String → ConvNode
  | arrayTypeNode : String → ConvNode
  | typeSpec : String → GoExpr → ConvNode
  deriving Repr

/-- The import line built at convert.go:249-260: alias from the binding
name (or the path's base segment), path with the first occurrence of the
root directory name replaced by `@` and `"/types.go.ts"` appended. -/
def importLineOf (root : String) (nm : Option String) (pathLit : String) : String :=
  let importName := match nm with
    | some n => stringsTrimQuote n
    | none => filepathBase (stringsTrimQuote pathLit)
  let importPath := replaceFirst (stringsTrimQuote pathLit) root "@"
  "import * as " ++ importName ++ " from \"" ++ importPath ++ "/types.go.ts\";\n"

/-- The body of the `ast.Inspect` callback in `Convert`
(convert.go:246-315), folded over the node sequence.  State: the last
`*ast.Ident` name seen (`name`), the `first` and `lastWasComment` flags
and the pending `builderErr`.  Returns the emitted text and the final
`builderErr`.  Mirrors the source exactly: a comment sets
`lastWasComment` but nothing ever clears it; the interface branch and the
array branch never touch `first`; a `writeType` error sets `builderErr`
without stopping the traversal and leaves `first` unchanged. -/
def convertNodes (root : String) :
    List ConvNode → String → Bool → Bool → Option String → String × Option String
  | [], _, _, _, berr => ("", berr)
  | .importSpec nm pathLit :: rest, name, first, lwc, berr =>
      let out := importLineOf root nm pathLit
      let (s, e) := convertNodes root rest name first lwc berr
      (out ++ s, e)
  | .identNode n :: rest, _, first, lwc, berr =>
      convertNodes root rest n first lwc berr
  | .comment t :: rest, name, first, _, berr =>
      let out := (if first then "" else "\n\n") ++ t ++ "\n"
      let (s, e) := convertNodes root rest name first true berr
      (out ++ s, e)
  | .arrayTypeNode elt :: rest, name, first, lwc, berr =>
      let out := (if first then "" else "\n\n")
        ++ "export type " ++ name ++ " extends Array<" ++ elt ++ ">\x7b\x7d"
      let (s, e) := convertNodes root rest name first lwc berr
      (out ++ s, e)
  | .typeSpec n ty :: rest, name, first, lwc, berr =>
      match ty with
      | .interfaceType =>
          let out := "export interface " ++ n ++ " \x7b\n\x7d\n"
          let (s, e) := convertNodes root rest name first lwc berr
          (out ++ s, e)
      | _ =>
          let sep := if first = false ∧ lwc = false then "\n\n" else ""
          let (ts, terr) := writeType ty (-1) false
          let out := sep ++ "export type " ++ n ++ " = " ++ ts
          match terr with
          | some e2 =>
              let (s, e) := convertNodes root rest name first lwc (some e2)
              (out ++ s, e)
          | none =>
              let (s, e) := convertNodes root rest name false lwc berr
              (out ++ s, e)

/-- `Convert` (convert.go:214-321) after a successful parse: fails fast
when the root directory name is unset, otherwise runs the traversal and
returns either the accumulated text or — when `builderErr` was set — an
error with the output withheld.  The three-strategy parser is an external
collaborator; `nodes` is the preorder node sequence of the parsed
input. -/
def Convert (root : String) (nodes : List ConvNode) : Except String String :=
  if root = "" then .error "RootDirName is empty"
  else
    match convertNodes root nodes "" true false none with
    | (_, some e) => .error (bubble "could not write type" e)
    | (out, none) => .ok out

/-- One import line of `createPackage` (aggregator file:171-176): the
path alone when its base segment equals the alias, otherwise alias and
path. -/
def renderImportEntry (key p : String) : String :=
  if filepathBase p = key then "\t\"" ++ p ++ "\"\n"
  else "\t" ++ key ++ " \"" ++ p ++ "\"\n"

/-- The filter in `createPackage`'s loop (aggregator file:162-169): keep
a used alias only when it is a declared import whose path starts with
the root directory name.  The `usedImports` map is modelled as its list
of entries in iteration order; values are the selector names recorded by
`findStructs` and are not consulted. -/
def retainedImports (imports usedImports : List (String × String))
    (root : String) : List (String × String) :=
  usedImports.filterMap (fun kv =>
    match imports.lookup kv.1 with
    | none => none
    | some p => if root.data.isPrefixOf p.data then some (kv.1, p) else none)

/-- `createPackage` (aggregator file:154-184): package header, the
retained import block, and a `func main` envelope around the concatenated
declarations. -/
def createPackage (body : String) (imports usedImports : List (String × String))
    (root : String) : String :=
  "package main\n\nimport (\n"
  ++ String.join ((retainedImports imports usedImports root).map
      (fun kp => renderImportEntry kp.1 kp.2))
  ++ ")\n\nfunc main() \x7b\n" ++ body ++ "\x7d\n"

/-- Outcome of `os.Stat` as `ReadTypes` distinguishes it: success with
the directory bit, a not-exist error (`os.IsNotExist(err)`), or any
other error (permission denied, `ENOTDIR`, ...).  On any error the
returned `FileInfo` is nil. -/
inductive StatResult : Type where
  | statOk : Bool → StatResult
  | statErrNotExist : String → StatResult
  | statErrOther : String → StatResult
  deriving Repr

/-- Outcome of a Go call returning `(string, error)`: a normal return,
or a runtime panic. -/
inductive GoCall : Type where
  | ret : String → Option String → GoCall
  | crash : String → GoCall
  deriving DecidableEq, Repr

/-- The path-handling head of `ReadTypes` (aggregator file:21-37).  When
`os.Stat` fails with an error that is not `IsNotExist`, the guard at
lines 26-30 falls through without returning, leaving `info` nil, and
line 31 calls `info.IsDir()` — a nil-pointer dereference panic.  The
per-file loop and packaging (lines 39-73) are abstracted as `rest`;
`readDirErr` is the outcome of `os.ReadDir`. -/
def ReadTypes (rootDirName : String) (stat : StatResult)
    (readDirErr : Option String) (rest : GoCall) : GoCall :=
  if rootDirName = "" then .ret "" (some "RootDirName is empty")
  else
    match stat with
    | .statErrNotExist m => .ret "" (some (bubble "path does not exist" m))
    | .statErrOther _ =>
        .crash "runtime error: invalid memory address or nil pointer dereference"
    | .statOk isDir =>
        if isDir = false then .ret "" (some "path is not a directory")
        else
          match readDirErr with
          | some m => .ret "" (some (bubble "could not read directory" m))
          | none => rest

/-- `structtag.Parse` failed on this field's tag (the branch at
convert.go:157-160). -/
def tagParseFails : GoField → Bool
  | .mk _ (some (.error _)) _ => true
  | _ => false

/-- The json tag information available to `writeFields` for a field:
`tags.Get("json")` on the parsed tag set, `none` when the field has no
tag or no json tag. -/
def tagJsonInfo : Option (Except String TagSet) → Option JsonTagInfo
  | some (.ok tset) => tset.json
  | _ => none

/-- Whether `writeFields` emits a line for this field: its name passes
the export test and it is not skipped by a `json:"-"` tag.  (A field
whose tag fails to parse aborts the loop instead; it neither emits nor
skips.) -/
def fieldEmits : GoField → Bool
  | .mk ns tag _ =>
      exportedAsciiName (ns.head?.getD "") &&
        (match tag with
         | some (.error _) => false
         | _ =>
             match tagJsonInfo tag with
             | some j => ¬ (j.name = "-")
             | none => true)

/-- A field as it stands after the `writeFields` pass: an emitted field
whose type was a pointer has been unwrapped in place
(convert.go:191-195); every other field is untouched. -/
def fieldAfterEmit : GoField → GoField
  | .mk ns tag ty => .mk ns tag (if fieldEmits (.mk ns tag ty) then unwrapStar ty else ty)

/-- The parsed field list of
`type User struct { Name string `json:"name"`; Age *int `json:"age,omitempty"` }`. -/
def userStructFields : List GoField :=
  [.mk ["Name"] (some (.ok ⟨some ⟨"name", false⟩⟩)) (.ident "string"),
   .mk ["Age"] (some (.ok ⟨some ⟨"age", true⟩⟩)) (.star (.ident "int"))]

/-- Claim C2: with the root namespace set, translating
`type User struct { Name string `json:"name"`; Age *int `json:"age,omitempty"` }`
yields exactly `export type User = {\n  name: string;\n  age?: number;\n};` —
tag names applied, the pointer field unwrapped and optional, fields
indented one unit, closing brace and semicolon at zero indentation.  The
node list is the preorder of the envelope-wrapped parse: the package and
function name identifiers, then the type declaration. -/
theorem convert_user_struct (root : String) (h : root ≠ "") :
    Convert root [.identNode "main", .identNode "main",
        .typeSpec "User" (.structType userStructFields)]
      = .ok "export type User = \x7b\n  name: string;\n  age?: number;\n\x7d;" := by
  unfold Convert
  rw [if_neg h]
  rfl

/-- Witness for C2 at root namespace `"@root"`. -/
theorem convert_user_struct_witness :
    Convert "@root" [.identNode "main", .identNode "main",
        .typeSpec "User" (.structType userStructFields)]
      = .ok "export type User = \x7b\n  name: string;\n  age?: number;\n\x7d;" :=
  convert_user_struct "@root" (by decide)

/-- Claim C1 (code bug): the claim says a malformed tag or an unsupported
shape nested in a struct field makes `Convert` return an error and
withhold all output.  In the code, `writeType`'s struct case
(convert.go:83) discards the error returned by `writeFields`, and
`writeFields` (convert.go:202) discards the error returned by the nested
`writeType` call, so `Convert` returns partial, syntactically invalid
text with a nil error: a field of channel type emits `A: ;` and a
malformed tag silently truncates the struct body. -/
theorem convert_swallows_nested_errors :
    Convert "@" [.identNode "main", .identNode "main",
        .typeSpec "T" (.structType
          [.mk ["A"] none (.otherExpr "chan int" "*ast.ChanType")])]
      = .ok "export type T = \x7b\n  A: ;\n\x7d;"
    ∧ Convert "@" [.identNode "main", .identNode "main",
        .typeSpec "U" (.structType
          [.mk ["B"] (some (.error "bad syntax for struct tag pair")) (.ident "int")])]
      = .ok "export type U = \x7b\n\x7d;" :=
  ⟨rfl, rfl⟩

/-- Counterexample to claim C4: translating `type ID []byte` does not
produce the named-array form.  The declaration parses to a `TypeSpec`
node, whose handler (convert.go:286-311) compiles the underlying type
through `writeType` — where `[]byte` becomes `string` — and returns
`false`, so the `*ast.ArrayType` branch of the traversal never sees the
node. -/
theorem convert_named_byte_slice_cex :
    Convert "@" [.identNode "main", .identNode "main",
        .typeSpec "ID" (.arrayType (.ident "byte"))]
      = .ok "export type ID = string"
    ∧ ("export type ID = string" : String)
      ≠ "export type ID extends Array<byte> \x7b\x7d" :=
  ⟨rfl, by decide⟩

/-- Claim C4 as amended: with the root namespace set, `type ID []byte`
is handled by the `TypeSpec` path and emits `export type ID = string`
(the byte-slice rule of the type compiler); the named-array branch is
bypassed because the `TypeSpec` handler does not descend into its
children. -/
theorem convert_named_byte_slice_amended (root : String) (h : root ≠ "") :
    Convert root [.identNode "main", .identNode "main",
        .typeSpec "ID" (.arrayType (.ident "byte"))]
      = .ok "export type ID = string" := by
  unfold Convert
  rw [if_neg h]
  rfl

/-- Witness for the amended C4 at root namespace `"@root"`. -/
theorem convert_named_byte_slice_amended_witness :
    Convert "@root" [.identNode "main", .identNode "main",
        .typeSpec "ID" (.arrayType (.ident "byte"))]
      = .ok "export type ID = string" :=
  convert_named_byte_slice_amended "@root" (by decide)

/-- Claim C6 (code bug): the claim says a blank separator precedes every
declaration after the first emission unless the immediately previous
emission was a comment.  `lastWasComment` is set at convert.go:271 and
never cleared, so after one comment no later declaration ever gets a
separator: for `package p` + `// hello` + `type A int` + `type B int`
the second declaration is glued directly to the first
(`...numberexport type B...`), although the previous emission was a
declaration, not a comment. -/
theorem convert_missing_separator_after_comment :
    Convert "@" [.identNode "p", .comment "// hello",
        .typeSpec "A" (.ident "int"), .typeSpec "B" (.ident "int")]
      = .ok "// hello\nexport type A = numberexport type B = number" :=
  rfl

/-- Claim C7 (code bug): the claim says the aggregation entry point
returns an error (and never crashes) for every failing path.  When
`os.Stat` fails with an error that is not `IsNotExist` — e.g. permission
denied, or `ENOTDIR` for a path with a file in directory position — the
guard at aggregator file:26-30 falls through, `info` is nil, and
`info.IsDir()` at line 31 panics, whatever the rest of the call would
have done. -/
theorem readTypes_stat_error_crash :
    ∀ (m : String) (rest : GoCall),
      ReadTypes "@" (.statErrOther m) none rest
        = .crash "runtime error: invalid memory address or nil pointer dereference" :=
  fun _ _ => rfl

/-- Helper: one `writeFields` loop iteration, with the pointer switch of
convert.go:191-195 expressed through `isStarExpr`/`unwrapStar`. -/
theorem writeField_unfold (ns : List String) (tag : Option (Except String TagSet))
    (ty : GoExpr) (d : Int) :
    writeField (.mk ns tag ty) d
      = match fieldGate ns tag with
        | .skip => .skip
        | .fail e => .fail e
        | .emit name o =>
            .emit (fieldLine d name (o || isStarExpr ty)
                (writeType (unwrapStar ty) d false).1)
              (.mk ns tag (unwrapStar ty)) := by
  cases ty <;> rcases hg : fieldGate ns tag with _ | e | ⟨nm, o⟩ <;>
    simp [writeField, hg, unwrapStar, isStarExpr]

/-- Claim C3: a pointer-typed field that is emitted at all produces the
line `name?: <compiled pointee>;` — the `?` marker is forced (`true`
below) regardless of the tag-derived optionality `opt0`, the emitted
type is the compilation of the pointee `t` (so the field-level rule
itself never appends ` | undefined`; that text arises only when the
pointee is itself a pointer), and the field's type is unwrapped in the
returned tree. -/
theorem writeFields_pointer_field (ns : List String) (tag : Option (Except String TagSet))
    (t : GoExpr) (fs : List GoField) (d : Int) (name : String) (opt0 : Bool)
    (h : fieldGate ns tag = .emit name opt0) :
    writeFields (.mk ns tag (.star t) :: fs) d
      = (fieldLine d name true (writeType t d false).1 ++ (writeFields fs d).1,
         (writeFields fs d).2.1,
         .mk ns tag t :: (writeFields fs d).2.2) := by
  rcases hr : writeFields fs d with ⟨s, e, fs2⟩
  simp [writeFields, writeField, h, hr]

/-- Witness for C3: the `Age *int `json:"age,omitempty"`` field emits
`  age?: number;` and is unwrapped to `int` in the tree. -/
theorem writeFields_pointer_field_witness :
    fieldGate ["Age"] (some (.ok ⟨some ⟨"age", true⟩⟩)) = .emit "age" true
    ∧ writeFields [.mk ["Age"] (some (.ok ⟨some ⟨"age", true⟩⟩)) (.star (.ident "int"))] 0
      = ("  age?: number;\n", none,
         [.mk ["Age"] (some (.ok ⟨some ⟨"age", true⟩⟩)) (.ident "int")]) := by
  refine ⟨by decide, ?_⟩
  rw [writeFields_pointer_field ["Age"] (some (.ok ⟨some ⟨"age", true⟩⟩))
    (.ident "int") [] 0 "age" true (by decide)]
  rfl

/-- Claim C10: a field whose name is empty or whose first byte is not an
ASCII byte in `['A','Z']` — which covers names beginning with a
non-ASCII uppercase letter, whose first UTF-8 byte is at least `0xC2` —
is skipped: it contributes nothing to the output and is returned
untouched. -/
theorem writeFields_skips_unexported (ns : List String)
    (tag : Option (Except String TagSet)) (ty : GoExpr) (fs : List GoField) (d : Int)
    (h : exportedAsciiName (ns.head?.getD "") = false) :
    writeFields (.mk ns tag ty :: fs) d
      = ((writeFields fs d).1, (writeFields fs d).2.1,
         .mk ns tag ty :: (writeFields fs d).2.2) := by
  have hg : fieldGate ns tag = .skip := by simp [fieldGate, h]
  rcases hr : writeFields fs d with ⟨s, e, fs2⟩
  simp [writeFields, writeField_unfold, hg, hr]

/-- Witness for C10: `Äge` starts with a non-ASCII uppercase letter
(first UTF-8 byte `0xC3`), so the field is skipped although the source
language treats the name as exported. -/
theorem writeFields_skips_unexported_witness :
    exportedAsciiName "Äge" = false
    ∧ writeFields [.mk ["Äge"] none (.ident "int")] 0
      = ("", none, [.mk ["Äge"] none (.ident "int")]) := by
  refine ⟨by decide, ?_⟩
  rw [writeFields_skips_unexported ["Äge"] none (.ident "int") [] 0 (by decide)]
  rfl

/-- The field `Age *int `json:"age,omitempty"``, used to exhibit the
in-place pointer unwrap. -/
def agePtrField : GoField :=
  .mk ["Age"] (some (.ok ⟨some ⟨"age", true⟩⟩)) (.star (.ident "int"))

/-- Counterexample to claim C9: the emission pass does mutate the parsed
tree.  `writeFields` on a single pointer field returns a field list that
differs from the input — the assignment `f.Type = t.X` at convert.go:194
replaces the field's pointer type with its pointee (observed here
through `isStarExpr` of the field's type). -/
theorem writeFields_mutates_pointer_field :
    (writeFields [agePtrField] 0).2.2 ≠ [agePtrField] := by
  intro hEq
  have h2 := congrArg (List.map (fun g => isStarExpr g.type)) hEq
  exact absurd h2 (by decide)

/-- Claim C9 as amended: the emission pass mutates exactly the emitted
pointer-typed fields — each has its type replaced in place by its
pointee — and leaves every skipped or non-pointer field unchanged (on
inputs where no tag parse error aborts the pass). -/
theorem writeFields_mutation_characterization (fields : List GoField) (d : Int)
    (h : ∀ f ∈ fields, tagParseFails f = false) :
    (writeFields fields d).2.2 = fields.map fieldAfterEmit := by
  induction fields with
  | nil => simp [writeFields]
  | cons f fs ih =>
      rcases f with ⟨ns, tag, ty⟩
      have hf : tagParseFails (.mk ns tag ty) = false := h _ (by simp)
      have hrest := ih (fun g hg => h g (by simp [hg]))
      rcases hr : writeFields fs d with ⟨s, e, fs2⟩
      rw [hr] at hrest
      have hrest2 : fs2 = List.map fieldAfterEmit fs := hrest
      rcases tag with _ | x
      · by_cases he : exportedAsciiName (ns.head?.getD "") = false <;>
          simp [writeFields, writeField_unfold, fieldGate, fieldAfterEmit, fieldEmits,
            tagJsonInfo, he, hr, hrest2]
      · rcases x with m | tset
        · simp [tagParseFails] at hf
        · rcases tset with ⟨json⟩
          rcases json with _ | j
          · by_cases he : exportedAsciiName (ns.head?.getD "") = false <;>
              simp [writeFields, writeField_unfold, fieldGate, fieldAfterEmit, fieldEmits,
                tagJsonInfo, he, hr, hrest2]
          · by_cases he : exportedAsciiName (ns.head?.getD "") = false
            · simp [writeFields, writeField_unfold, fieldGate, fieldAfterEmit, fieldEmits,
                tagJsonInfo, he, hr, hrest2]
            · by_cases hd : j.name = "-" <;>
                simp [writeFields, writeField_unfold, fieldGate, fieldAfterEmit, fieldEmits,
                  tagJsonInfo, he, hd, hr, hrest2]

/-- Witness for the amended C9 on a list with a skipped field, a plain
field and a pointer field: only the pointer field changes. -/
theorem writeFields_mutation_characterization_witness :
    (∀ f ∈ ([.mk ["Äge"] none (.ident "int"),
             .mk ["Name"] none (.ident "string"),
             .mk ["Age"] none (.star (.ident "int"))] : List GoField),
        tagParseFails f = false)
    ∧ (writeFields [.mk ["Äge"] none (.ident "int"),
          .mk ["Name"] none (.ident "string"),
          .mk ["Age"] none (.star (.ident "int"))] 0).2.2
      = [.mk ["Äge"] none (.ident "int"),
         .mk ["Name"] none (.ident "string"),
         .mk ["Age"] none (.ident "int")] := by
  refine ⟨by decide, ?_⟩
  rw [writeFields_mutation_characterization _ 0 (by decide)]
  rfl

/-- Claim C5: a declared import appears in the retained import list —
from which `createPackage` renders its import block — exactly when its
alias is recorded as used and its path starts with the root directory
name; the hypothesis mirrors the `len(usedImports) == 0` guard under
which `ReadTypes` calls `createPackage` at all. -/
theorem createPackage_retained_imports (body : String)
    (imports usedImports : List (String × String)) (root key p : String)
    (hne : usedImports ≠ []) :
    createPackage body imports usedImports root
      = "package main\n\nimport (\n"
        ++ String.join ((retainedImports imports usedImports root).map
            (fun kp => renderImportEntry kp.1 kp.2))
        ++ ")\n\nfunc main() \x7b\n" ++ body ++ "\x7d\n"
    ∧ ((key, p) ∈ retainedImports imports usedImports root
        ↔ (∃ v, (key, v) ∈ usedImports)
          ∧ imports.lookup key = some p
          ∧ root.data.isPrefixOf p.data = true) := by
  refine ⟨rfl, ?_⟩
  simp only [retainedImports, List.mem_filterMap]
  constructor
  · rintro ⟨⟨k2, v⟩, hmem, heq⟩
    rcases hl : imports.lookup k2 with _ | p2
    · rw [hl] at heq
      simp at heq
    · rw [hl] at heq
      have heq2 : (if root.data.isPrefixOf p2.data = true
          then some ((k2, v).1, p2) else none) = some (key, p) := heq
      by_cases hpre : root.data.isPrefixOf p2.data = true
      · rw [if_pos hpre] at heq2
        simp only [Option.some.injEq, Prod.mk.injEq] at heq2
        obtain ⟨hk, hp⟩ := heq2
        subst hk
        subst hp
        exact ⟨⟨v, hmem⟩, hl, hpre⟩
      · rw [if_neg hpre] at heq2
        simp at heq2
  · rintro ⟨⟨v, hv⟩, hlook, hpre⟩
    exact ⟨(key, v), hv, by simp [hlook, hpre]⟩

/-- Witness for C5: with `pkg` used and declared under the root and
`other` declared outside it, exactly the `pkg` binding is retained. -/
theorem createPackage_retained_imports_witness :
    ("pkg", "root/pkg") ∈ retainedImports
      [("pkg", "root/pkg"), ("other", "ext/other")] [("pkg", "T")] "root" :=
  ((createPackage_retained_imports "BODY" [("pkg", "root/pkg"), ("other", "ext/other")]
      [("pkg", "T")] "root" "pkg" "root/pkg" (by decide)).2).mpr
    ⟨⟨"T", by decide⟩, by decide, by decide⟩

/-- Counterexample to claim C8: the import path rewrite is not a prefix
rewrite.  `strings.Replace(importPath, rootDirName, "@", 1)` at
convert.go:258 replaces the first occurrence of the root directory name
anywhere in the path: with root `foo`, the unaliased import
`"x/foo/y"` — where `foo` occurs only in the middle — is emitted with
`x/@/y`, not left as `x/foo/y`. -/
theorem convert_import_replace_cex :
    Convert "foo" [.importSpec none "\"x/foo/y\""]
      = .ok "import * as y from \"x/@/y/types.go.ts\";\n"
    ∧ ("import * as y from \"x/@/y/types.go.ts\";\n" : String)
      ≠ "import * as y from \"x/foo/y/types.go.ts\";\n" :=
  ⟨rfl, by decide⟩

/-- Claim C8 as amended: every import declaration emits exactly one line
`import * as <alias> from "<rewrittenPath>/types.go.ts";`, where the
alias is the binding's (quote-trimmed) local name or the path's base
segment, and the rewritten path replaces the FIRST occurrence of the
root directory name anywhere in the path by `@`; when the root occurs as
a prefix this coincides with the prefix rewrite the spec describes
(second conjunct). -/
theorem convert_import_line_amended (root : String) (nm : Option String)
    (pathLit : String) (h : root ≠ "") :
    Convert root [.importSpec nm pathLit] = .ok (importLineOf root nm pathLit)
    ∧ (root.data.isPrefixOf (stringsTrimQuote pathLit).data = true →
        replaceFirst (stringsTrimQuote pathLit) root "@"
          = String.mk ('@' :: (stringsTrimQuote pathLit).data.drop root.data.length)) := by
  constructor
  · have hc : convertNodes root [.importSpec nm pathLit] "" true false none
        = (importLineOf root nm pathLit ++ "", none) := rfl
    unfold Convert
    rw [if_neg h, hc]
    show Except.ok (importLineOf root nm pathLit ++ "") = _
    rw [String.append_empty]
  · intro hpre
    have h0 : subIndex (stringsTrimQuote pathLit).data root.data = some 0 := by
      unfold subIndex
      rw [if_pos hpre]
    unfold replaceFirst
    rw [h0]
    show String.mk (List.take 0 (stringsTrimQuote pathLit).data ++ ['@']
        ++ List.drop (0 + root.data.length) (stringsTrimQuote pathLit).data)
      = String.mk ('@' :: List.drop root.data.length (stringsTrimQuote pathLit).data)
    rw [Nat.zero_add]
    rfl

/-- Witness for the amended C8: root `foo`, unaliased import
`"foo/bar"` — a prefix occurrence — emits the `@`-rewritten line. -/
theorem convert_import_line_amended_witness :
    Convert "foo" [.importSpec none "\"foo/bar\""]
      = .ok "import * as bar from \"@/bar/types.go.ts\";\n"
    ∧ replaceFirst "foo/bar" "foo" "@" = "@/bar" := by
  constructor
  · have h1 := (convert_import_line_amended "foo" none "\"foo/bar\"" (by decide)).1
    rw [h1]
    rfl
  · have h2 := (convert_import_line_amended "foo" none "\"foo/bar\"" (by decide)).2 (by decide)
    exact (by rfl : replaceFirst "foo/bar" "foo" "@"
      = replaceFirst (stringsTrimQuote "\"foo/bar\"") "foo" "@").trans
      (h2.trans (by rfl))
